import Mathlib

/-
Verification development for the hormann-hcp-client repository: a shallow
embedding of the CRC-8 routine, the HCP packet accessors, the serial protocol
engine (SerialHCPClient) and the garage door state machine
(HormannGarageDoorOpener), with theorems checking the specification claims.

Bytes are modelled as Nat values; byte sequences as List Nat. Fallible code
returns Except String or records the thrown message in a result field.
-/

namespace HCP

/-- Modelled from the spec: one shift-and-reduce round of the CRC-8 kernel of
the crc-full dependency (polynomial 0x07, width 8, no reflection), which is
not part of this repository. Masks the accumulator back to 8 bits. -/
def crc8round (c : Nat) : Nat :=
  if (c &&& 0x80) ≠ 0 then ((c <<< 1) ^^^ 0x07) &&& 0xFF else (c <<< 1) &&& 0xFF

/-- Modelled from the spec: absorb one input byte into the CRC accumulator
(xor in, then 8 rounds), per the CRC parameters fixed in the spec. -/
def crc8byte (c b : Nat) : Nat := Nat.iterate crc8round 8 (c ^^^ b)

/-- Modelled from the spec: CRC-8 with polynomial 0x07, start value 0xF3, no
input or output reflection, final xor 0x00, folded over the byte sequence. -/
def crc8 (bytes : List Nat) : Nat := bytes.foldl crc8byte 0xF3

/-- Embeds computeCRC8 from src/src/hormann/utils.ts: throws on an empty
input, otherwise delegates to the CRC-8 kernel. -/
def computeCRC8 (bytes : List Nat) : Except String Nat :=
  if bytes.isEmpty then .error "Bytes cannot be empty" else .ok (crc8 bytes)

/-- Embeds the HCPPacket address accessor: byte 0 of the frame. -/
def address (p : List Nat) : Nat := p.getD 0 0

/-- Embeds the length byte access this[PKT_HEADER.LENGTH]: byte 1. -/
def lengthByte (p : List Nat) : Nat := p.getD 1 0

/-- Embeds the HCPPacket lengthNibble accessor: low nibble of byte 1. -/
def lengthNibble (p : List Nat) : Nat := lengthByte p &&& 0x0f

/-- Embeds the HCPPacket counterNibble accessor of the current parser
variant: byte 1 shifted right by 4. -/
def counterNibble (p : List Nat) : Nat := lengthByte p >>> 4

/-- Embeds the HCPPacket payload accessor of the current parser variant,
subarray(2, -1): everything after the 2-byte header and before the CRC. -/
def payload (p : List Nat) : List Nat := (p.drop 2).dropLast

/-- Embeds the HCPPacket crc accessor: the last byte of the frame. -/
def crc (p : List Nat) : Nat := p.getLastD 0

/-- Embeds HCPPacket.fromData for in-range arguments (address below 256,
counter nibble below 16, payload of at most 15 bytes, the only shapes the
engine builds): packs the length byte as (counter <<< 4) + payload length and
appends the computed CRC. The range errors of the source cannot fire on the
constant arguments used by the engine and are omitted. -/
def fromData (addr ctr : Nat) (pay : List Nat) : List Nat :=
  let body := addr :: ((ctr <<< 4) + pay.length) :: pay
  body ++ [crc8 body]

/-- Embeds SerialHCPClient.extractBitfield, read at index i:
bits[i] = ((1 << i) & byte) != 0. -/
def extractBitfield (byte i : Nat) : Bool := ((1 <<< i) &&& byte) != 0

/-- Embeds SerialHCPClient.getNextCounter: (counter + 1) % 16. -/
def getNextCounter (c : Nat) : Nat := (c + 1) % 16

/-- Embeds SerialHCPClient.createSlaveStatusPayload: byte 0 is the OR of
1 << flag over the flags, byte 1 is 0x00 on emergency stop and 0x10 else,
behind the SLAVE_STATUS_RESPONSE code 0x29. -/
def createSlaveStatusPayload (flags : List Nat) (emergencyStop : Bool) : List Nat :=
  let byte0 := flags.foldl (fun b f => b ||| (1 <<< f)) 0x00
  let byte1 := if emergencyStop then 0x00 else 0x10
  [0x29, byte0, byte1]

/-- Models the resolve callback attached to a ResponsePayload: the slave scan
response emits the init event, a queued command fulfills its promise
(identified by a number), the default status response does nothing. -/
inductive Resolver where
  | scanInit
  | promise (id : Nat)
  | noop
  deriving DecidableEq, Repr

/-- Embeds the ResponsePayload record of serialHCPClient: response payload
bytes, an optional pre-set counter, and the resolver. -/
structure ResponsePayload where
  payload : List Nat
  counter : Option Nat
  resolver : Resolver
  deriving DecidableEq, Repr

/-- Embeds the mutable state of SerialHCPClient: nextMessageCounter and the
FIFO sendQueue. -/
structure ClientState where
  nextMessageCounter : Nat
  sendQueue : List ResponsePayload
  deriving DecidableEq, Repr

/-- Embeds SerialHCPClient.processSlaveCommand: dispatch on payload byte 0;
0x01 is a slave scan (payload must be [0x01, 0x80], reply [UAP1_TYPE = 0x14,
UAP1_ADDR = 0x28] with the init resolver), 0x20 is a slave status request
(payload must have length 1; pop the queue head if any, else the default
status payload), anything else throws. -/
def processSlaveCommand (s : ClientState) (p : List Nat) :
    Except String (ClientState × ResponsePayload) :=
  let pay := payload p
  if pay.getD 0 0 = 0x01 then
    if pay.length ≠ 2 ∨ pay.getD 1 0 ≠ 0x80 then
      .error "Unexpected payload for slave scan packet"
    else
      .ok (s, ⟨[0x14, 0x28], none, .scanInit⟩)
  else if pay.getD 0 0 = 0x20 then
    if pay.length ≠ 1 then
      .error "Unexpected payload length for slave status request"
    else
      match s.sendQueue with
      | [] => .ok (s, ⟨createSlaveStatusPayload [] false, none, .noop⟩)
      | e :: rest => .ok ({ s with sendQueue := rest }, e)
  else
    .error "Unknown slave command code"

/-- Collects what one processMessage call did: the state afterwards, the
thrown message if any, the broadcast payload published on the data event if
any, and the response to send if any. -/
structure ProcResult where
  state : ClientState
  error : Option String
  broadcast : Option (List Nat)
  response : Option ResponsePayload
  deriving DecidableEq, Repr

/-- Embeds SerialHCPClient.processMessage. A counter mismatch throws before
any mutation unless the packet is a broadcast (then it only warns); the
counter is then force-set to (packet counter + 1) % 16. Broadcasts publish
their 2-byte payload (throwing on other payload lengths, after the counter
was already set). Packets to the slave address run processSlaveCommand, give
the response the advanced counter and advance once more. Other addresses are
ignored. -/
def processMessage (s : ClientState) (p : List Nat) : ProcResult :=
  let nextCounter := getNextCounter (counterNibble p)
  if counterNibble p ≠ s.nextMessageCounter ∧ address p ≠ 0x00 then
    ⟨s, some "Invalid message counter", none, none⟩
  else
    let s1 : ClientState := { s with nextMessageCounter := nextCounter }
    if address p = 0x00 then
      if (payload p).length ≠ 2 then
        ⟨s1, some "unexpected broadcast payload length", none, none⟩
      else
        ⟨s1, none, some (payload p), none⟩
    else if address p = 0x28 then
      match processSlaveCommand s1 p with
      | .error e => ⟨s1, some e, none, none⟩
      | .ok (s2, resp) =>
        let ctr := resp.counter.getD s2.nextMessageCounter
        let s3 : ClientState := { s2 with nextMessageCounter := getNextCounter ctr }
        ⟨s3, none, none, some { resp with counter := some ctr }⟩
    else
      ⟨s1, none, none, none⟩

/-- Models the observable events of the engine: the data event with a
broadcast payload, the error event with the caught message, the write of a
response packet to the port, the init event, the fulfillment of a command
promise with the sent packet, and the rejection on a write failure. -/
inductive Event where
  | data (payload : List Nat)
  | errorEv (msg : String)
  | sent (packet : List Nat)
  | init (packet : List Nat)
  | resolved (id : Nat) (packet : List Nat)
  | rejected (reason : String)
  deriving DecidableEq, Repr

/-- Maps a resolver to the events its resolve callback fires when called
with the sent packet. -/
def resolveEvents (r : Resolver) (pkt : List Nat) : List Event :=
  match r with
  | .scanInit => [.init pkt]
  | .promise id => [.resolved id pkt]
  | .noop => []

/-- Embeds SerialHCPClient.onNewPacket: run processMessage (catching its
throw as an error event); when a response comes back, build the packet with
HCPPacket.fromData(MASTER = 0x80, response counter, response payload), write
it, and on write success call the resolver with the sent packet, on write
failure call reject. The writeOk flag stands for the outcome of the port
write. -/
def onNewPacket (s : ClientState) (p : List Nat) (writeOk : Bool) :
    ClientState × List Event :=
  let r := processMessage s p
  let evs0 :=
    (match r.broadcast with | some b => [Event.data b] | none => []) ++
    (match r.error with | some e => [Event.errorEv e] | none => [])
  match r.response with
  | none => (r.state, evs0)
  | some resp =>
    let pkt := fromData 0x80 (resp.counter.getD 0) resp.payload
    if writeOk then
      (r.state, evs0 ++ [Event.sent pkt] ++ resolveEvents resp.resolver pkt)
    else
      (r.state, evs0 ++ [Event.rejected "TX error"])

/-- Embeds SerialHCPClient.pushCommand: append a pending entry holding the
slave status payload for the flags and the emergency stop flag, whose
promise is identified by id. -/
def pushCommand (s : ClientState) (flags : List Nat) (estop : Bool) (id : Nat) :
    ClientState :=
  { s with sendQueue :=
      s.sendQueue ++ [⟨createSlaveStatusPayload flags estop, none, .promise id⟩] }

/-- Describes one pushCommand call: its flags, emergency stop argument, and
the identifier of the promise it returns. -/
structure Cmd where
  flags : List Nat
  estop : Bool
  id : Nat

/-- Folds a list of pushCommand calls over the client state. -/
def pushCommands (s : ClientState) (cs : List Cmd) : ClientState :=
  cs.foldl (fun s c => pushCommand s c.flags c.estop c.id) s

/-- Queue entry created by pushCommand for one command. -/
def mkEntry (c : Cmd) : ResponsePayload :=
  ⟨createSlaveStatusPayload c.flags c.estop, none, .promise c.id⟩

/-- Builds a slave status request frame carrying counter c: address UAP1 =
0x28, payload [0x20], CRC appended. -/
def mkStatusRequest (c : Nat) : List Nat := fromData 0x28 c [0x20]

/-- One poll cycle: the master sends a slave status request carrying the
counter the engine expects, and the write succeeds. -/
def pollStep (s : ClientState) : ClientState × List Event :=
  onNewPacket s (mkStatusRequest s.nextMessageCounter) true

/-- Runs n successive poll cycles and concatenates their events. -/
def runPolls : ClientState → Nat → ClientState × List Event
  | s, 0 => (s, [])
  | s, n + 1 =>
    ((runPolls (pollStep s).1 n).1, (pollStep s).2 ++ (runPolls (pollStep s).1 n).2)

/-- Extracts the promise fulfillments from an event list, in order: pairs of
promise identifier and the packet it was fulfilled with. -/
def resolutions (evs : List Event) : List (Nat × List Nat) :=
  evs.filterMap (fun e =>
    match e with
    | .resolved id pkt => some (id, pkt)
    | _ => none)

/-- Spec-side description of the event trace of successive polls draining
the queue: for each command, in submission order, one poll sends the packet
built from its slave status payload on the advanced counter and fulfills
its promise with that same sent packet. -/
def expectedEvents : Nat → List Cmd → List Event
  | _, [] => []
  | c, cmd :: rest =>
    let pkt := fromData 0x80 (getNextCounter c)
      (createSlaveStatusPayload cmd.flags cmd.estop)
    Event.sent pkt :: Event.resolved cmd.id pkt ::
      expectedEvents (getNextCounter (getNextCounter c)) rest

/-- Embeds the CurrentDoorState values of src/src/garagedoor.ts. -/
inductive CurrentDoorState where
  | OPEN
  | CLOSED
  | OPENING
  | CLOSING
  | STOPPED
  | VENTING
  deriving DecidableEq, Repr

/-- Embeds the TargetDoorState values of src/src/garagedoor.ts. -/
inductive TargetDoorState where
  | OPEN
  | CLOSED
  | VENTING
  deriving DecidableEq, Repr

/-- Embeds the GarageState record: door state and light flag. -/
structure GarageState where
  door : CurrentDoorState
  light : Bool
  deriving DecidableEq, Repr

/-- Embeds HormannGarageDoorOpener.broadcastToCurrentState: decode byte 0 of
the broadcast status through the bitfield, with the error_active bit first,
then the moving bits, then the resting positions, else an unknown status
error; the light flag always comes from bit 3. -/
def broadcastToCurrentState (status : List Nat) : Except String GarageState :=
  let b := status.getD 0 0
  if extractBitfield b 4 then .error "Error active"
  else
    let lightState := extractBitfield b 3
    if extractBitfield b 6 then
      if extractBitfield b 5 = false then .ok ⟨.OPENING, lightState⟩
      else .ok ⟨.CLOSING, lightState⟩
    else if extractBitfield b 1 then .ok ⟨.OPEN, lightState⟩
    else if extractBitfield b 0 then .ok ⟨.CLOSED, lightState⟩
    else if extractBitfield b 7 then .ok ⟨.VENTING, lightState⟩
    else .error "Unknown status"

/-- Embeds the mutable cells of HormannGarageDoorOpener: the cached raw
broadcast status (starting as two zero bytes), and the current, target and
light cells (null until first populated). -/
structure DoorState where
  broadcastStatus : List Nat
  currentState : Option CurrentDoorState
  targetState : Option TargetDoorState
  lightState : Option Bool
  deriving DecidableEq, Repr

/-- Models the events the door state machine emits. -/
inductive DoorEvent where
  | updateDoor (d : CurrentDoorState)
  | updateLight (b : Bool)
  | errorEv (msg : String)
  deriving DecidableEq, Repr

/-- Embeds HormannGarageDoorOpener.onBroadcast: skip when byte 0 equals the
cached byte 0; otherwise cache the status, decode it, emit the decode error
without touching the cells, or update and announce the door and light cells
that changed. -/
def onBroadcast (d : DoorState) (status : List Nat) : DoorState × List DoorEvent :=
  if status.getD 0 0 = d.broadcastStatus.getD 0 0 then (d, [])
  else
    let d1 := { d with broadcastStatus := status }
    match broadcastToCurrentState status with
    | .error e => (d1, [.errorEv e])
    | .ok ns =>
      let upd :=
        if d1.currentState ≠ some ns.door then
          ({ d1 with currentState := some ns.door }, [DoorEvent.updateDoor ns.door])
        else (d1, ([] : List DoorEvent))
      let upl :=
        if upd.1.lightState ≠ some ns.light then
          ({ upd.1 with lightState := some ns.light }, [DoorEvent.updateLight ns.light])
        else (upd.1, [])
      (upl.1, upd.2 ++ upl.2)

/-- One CRC round keeps the accumulator in byte range. -/
theorem crc8round_le (c : Nat) : crc8round c ≤ 255 := by
  unfold crc8round
  split <;> exact Nat.and_le_right

/-- Iterating at least one CRC round keeps the accumulator in byte range. -/
theorem iterate_crc8round_le (n x : Nat) : Nat.iterate crc8round (n + 1) x ≤ 255 := by
  induction n generalizing x with
  | zero => exact crc8round_le x
  | succ n ih => exact ih (crc8round x)

/-- Absorbing a byte keeps the accumulator in byte range. -/
theorem crc8byte_le (c b : Nat) : crc8byte c b ≤ 255 := iterate_crc8round_le 7 (c ^^^ b)

/-- Folding the byte step over any list keeps a byte-range accumulator in
byte range. -/
theorem foldl_crc8byte_le (bs : List Nat) (acc : Nat) (h : acc ≤ 255) :
    bs.foldl crc8byte acc ≤ 255 := by
  induction bs generalizing acc with
  | nil => exact h
  | cons b bs ih => exact ih _ (crc8byte_le acc b)

/-- The CRC-8 of any byte list is in byte range. -/
theorem crc8_le (bs : List Nat) : crc8 bs ≤ 255 :=
  foldl_crc8byte_le bs 0xF3 (by decide)

set_option maxRecDepth 4000 in
/-- C5: computeCRC8 fails with the empty-input error on zero bytes, returns
a value in 0..255 for every non-empty byte sequence, and matches the
reference vectors CRC8([0x00]) = 0xD7, CRC8([1,2,3,4]) = 0xDA and
CRC8([0x80,0xF3,0x29,0x00,0x10]) = 0x08. -/
theorem computeCRC8_spec (bs : List Nat) (h : bs ≠ []) :
    (∃ v, computeCRC8 bs = .ok v ∧ v ≤ 255) ∧
    computeCRC8 [] = .error "Bytes cannot be empty" ∧
    computeCRC8 [0x00] = .ok 0xD7 ∧
    computeCRC8 [1, 2, 3, 4] = .ok 0xDA ∧
    computeCRC8 [0x80, 0xF3, 0x29, 0x00, 0x10] = .ok 0x08 := by
  refine ⟨⟨crc8 bs, ?_, crc8_le bs⟩, rfl, rfl, rfl, rfl⟩
  cases bs with
  | nil => exact absurd rfl h
  | cons b t => rfl

/-- Closed instance of computeCRC8_spec at the non-empty input [0x00]. -/
theorem computeCRC8_spec_witness :
    ([0x00] : List Nat) ≠ [] ∧ (∃ v, computeCRC8 [0x00] = .ok v ∧ v ≤ 255) :=
  ⟨by decide, (computeCRC8_spec [0x00] (by decide)).1⟩

/-- C6: for every HCPPacket frame of n bytes, the payload accessor returns
exactly bytes 2 through n-2 inclusive, the bytes between the 2-byte header
and the trailing CRC byte; for the frame 80f329001008 the payload is
[0x29, 0x00, 0x10]. -/
theorem payload_bytes_spec (bytes : List Nat) (h : 4 ≤ bytes.length) :
    (payload bytes).length = bytes.length - 3 ∧
    (∀ i, i < bytes.length - 3 → (payload bytes).getD i 0 = bytes.getD (2 + i) 0) ∧
    payload [0x80, 0xf3, 0x29, 0x00, 0x10, 0x08] = [0x29, 0x00, 0x10] := by
  have hlen : (payload bytes).length = bytes.length - 3 := by
    simp only [payload, List.length_dropLast, List.length_drop]
    omega
  refine ⟨hlen, ?_, rfl⟩
  intro i hi
  rw [List.getD_eq_getElem _ _ (by omega : i < (payload bytes).length),
    List.getD_eq_getElem _ _ (by omega : 2 + i < bytes.length)]
  simp only [payload, List.getElem_dropLast, List.getElem_drop]

/-- Closed instance of payload_bytes_spec at the frame 80f329001008. -/
theorem payload_bytes_spec_witness :
    4 ≤ ([0x80, 0xf3, 0x29, 0x00, 0x10, 0x08] : List Nat).length ∧
    payload [0x80, 0xf3, 0x29, 0x00, 0x10, 0x08] = [0x29, 0x00, 0x10] :=
  ⟨by decide, (payload_bytes_spec [0x80, 0xf3, 0x29, 0x00, 0x10, 0x08] (by decide)).2.2⟩

/-- Reading the extracted bitfield at index i is testing bit i. -/
theorem extractBitfield_eq_testBit (b i : Nat) : extractBitfield b i = b.testBit i := by
  unfold extractBitfield
  rw [Nat.one_shiftLeft, Nat.two_pow_and]
  have h2 : 2 ^ i ≠ 0 := Nat.pos_iff_ne_zero.mp (Nat.two_pow_pos i)
  cases h : b.testBit i <;> simp [h, h2]

/-- C4: broadcast status byte 0 decodes with the error_active bit (bit 4)
first, then the moving bit (bit 6) with direction bit 5 (0 gives OPENING, 1
gives CLOSING), then door_opened (bit 1), door_closed (bit 0) and
door_venting (bit 7) in that order, and otherwise the unknown status error;
the light flag is always bit 3; the payload [0x0E, 0x02] decodes to the OPEN
door with the light on. -/
theorem broadcastToCurrentState_priority (b0 b1 : Nat) :
    (b0.testBit 4 = true → broadcastToCurrentState [b0, b1] = .error "Error active") ∧
    (b0.testBit 4 = false → b0.testBit 6 = true → b0.testBit 5 = false →
      broadcastToCurrentState [b0, b1] = .ok ⟨.OPENING, b0.testBit 3⟩) ∧
    (b0.testBit 4 = false → b0.testBit 6 = true → b0.testBit 5 = true →
      broadcastToCurrentState [b0, b1] = .ok ⟨.CLOSING, b0.testBit 3⟩) ∧
    (b0.testBit 4 = false → b0.testBit 6 = false → b0.testBit 1 = true →
      broadcastToCurrentState [b0, b1] = .ok ⟨.OPEN, b0.testBit 3⟩) ∧
    (b0.testBit 4 = false → b0.testBit 6 = false → b0.testBit 1 = false →
      b0.testBit 0 = true → broadcastToCurrentState [b0, b1] = .ok ⟨.CLOSED, b0.testBit 3⟩) ∧
    (b0.testBit 4 = false → b0.testBit 6 = false → b0.testBit 1 = false →
      b0.testBit 0 = false → b0.testBit 7 = true →
      broadcastToCurrentState [b0, b1] = .ok ⟨.VENTING, b0.testBit 3⟩) ∧
    (b0.testBit 4 = false → b0.testBit 6 = false → b0.testBit 1 = false →
      b0.testBit 0 = false → b0.testBit 7 = false →
      broadcastToCurrentState [b0, b1] = .error "Unknown status") ∧
    broadcastToCurrentState [0x0E, 0x02] = .ok ⟨.OPEN, true⟩ := by
  refine ⟨?_, ?_, ?_, ?_, ?_, ?_, ?_, rfl⟩ <;>
    intros <;>
    simp_all [broadcastToCurrentState, extractBitfield_eq_testBit]

/-- Closed instance of broadcastToCurrentState_priority: decoding the byte 0
value 0x0E (door_opened and light bits set, not moving, no error) yields the
OPEN door with the light on. -/
theorem broadcastToCurrentState_priority_witness :
    broadcastToCurrentState [0x0E, 0x02] = .ok ⟨.OPEN, true⟩ :=
  (broadcastToCurrentState_priority 0x0E 0x02).2.2.2.1 (by decide) (by decide) (by decide)

/-- C1: processing a broadcast frame (address 0x00, 2-byte payload) never
records an error, whatever the stored counter was, and leaves
nextMessageCounter at (packet counter + 1) mod 16. -/
theorem processMessage_broadcast_counter_sync (s : ClientState) (p : List Nat)
    (haddr : address p = 0x00) (hlen : (payload p).length = 2) :
    (processMessage s p).error = none ∧
    (processMessage s p).state.nextMessageCounter = (counterNibble p + 1) % 16 := by
  unfold processMessage
  simp [haddr, hlen, getNextCounter]

/-- Closed instance of processMessage_broadcast_counter_sync: the stale
counter 255 with the broadcast 00820e023c (counter 8) gives no error and a
next counter of 9. -/
theorem processMessage_broadcast_counter_sync_witness :
    (processMessage ⟨255, []⟩ [0x00, 0x82, 0x0e, 0x02, 0x3c]).error = none ∧
    (processMessage ⟨255, []⟩ [0x00, 0x82, 0x0e, 0x02, 0x3c]).state.nextMessageCounter = 9 := by
  have h := processMessage_broadcast_counter_sync ⟨255, []⟩
    [0x00, 0x82, 0x0e, 0x02, 0x3c] (by decide) (by decide)
  exact ⟨h.1, h.2⟩

/-- C2: a slave status request (address 0x28, payload [0x20]) carrying the
expected counter, processed on an empty queue, yields no error, the default
response payload [0x29, 0x00, 0x10] on counter (request counter + 1) mod 16,
leaves nextMessageCounter at (request counter + 2) mod 16, and on a
successful write the only event is the write of the packet built from that
counter and payload. -/
theorem processMessage_slaveStatus_default (s : ClientState) (p : List Nat)
    (haddr : address p = 0x28) (hpay : payload p = [0x20])
    (hctr : counterNibble p = s.nextMessageCounter) (hq : s.sendQueue = []) :
    (processMessage s p).error = none ∧
    (processMessage s p).response =
      some ⟨[0x29, 0x00, 0x10], some ((counterNibble p + 1) % 16), .noop⟩ ∧
    (processMessage s p).state.nextMessageCounter = (counterNibble p + 2) % 16 ∧
    (onNewPacket s p true).2 =
      [Event.sent (fromData 0x80 ((counterNibble p + 1) % 16) [0x29, 0x00, 0x10])] := by
  have key : processMessage s p =
      ⟨⟨getNextCounter (getNextCounter s.nextMessageCounter), []⟩, none, none,
        some ⟨[0x29, 0x00, 0x10], some (getNextCounter s.nextMessageCounter), .noop⟩⟩ := by
    unfold processMessage processSlaveCommand
    simp [haddr, hpay, hctr, hq, createSlaveStatusPayload]
  have hmod2 : getNextCounter (getNextCounter s.nextMessageCounter) =
      (counterNibble p + 2) % 16 := by
    rw [hctr]; unfold getNextCounter; omega
  refine ⟨by rw [key], by rw [key, hctr]; rfl, by rw [key, hmod2], ?_⟩
  unfold onNewPacket
  rw [key, hctr]
  simp only [resolveEvents]
  rfl

set_option maxRecDepth 8000 in
/-- Closed instance of processMessage_slaveStatus_default: feeding 28d1208c
(status request, counter 13) with an empty queue and next counter 13 gives
no error, the response payload [0x29, 0x00, 0x10] on counter 14, next
counter 15, and emits the packet 80e32900106f, which is
[0x80, (0xE <<< 4) ||| 3, 0x29, 0x00, 0x10, crc]. -/
theorem processMessage_slaveStatus_default_witness :
    (processMessage ⟨13, []⟩ [0x28, 0xd1, 0x20, 0x8c]).error = none ∧
    (processMessage ⟨13, []⟩ [0x28, 0xd1, 0x20, 0x8c]).response =
      some ⟨[0x29, 0x00, 0x10], some 14, .noop⟩ ∧
    (processMessage ⟨13, []⟩ [0x28, 0xd1, 0x20, 0x8c]).state.nextMessageCounter = 15 ∧
    (onNewPacket ⟨13, []⟩ [0x28, 0xd1, 0x20, 0x8c] true).2 =
      [Event.sent [0x80, 0xe3, 0x29, 0x00, 0x10, 0x6f]] := by
  have h := processMessage_slaveStatus_default ⟨13, []⟩ [0x28, 0xd1, 0x20, 0x8c]
    (by decide) (by decide) (by decide) (by decide)
  exact ⟨h.1, h.2.1, h.2.2.1, h.2.2.2.trans (by decide)⟩

/-- C8 counterexample: the frame aa11 20 bc is addressed to neither the
broadcast nor the slave address and carries counter 1 while the engine
expects 2; processing it records the invalid counter error instead of being
ignored silently. -/
theorem otherAddress_mismatch_counterexample :
    address [0xaa, 0x11, 0x20, 0xbc] ≠ 0x00 ∧
    address [0xaa, 0x11, 0x20, 0xbc] ≠ 0x28 ∧
    counterNibble [0xaa, 0x11, 0x20, 0xbc] ≠ (2 : Nat) ∧
    (processMessage ⟨2, []⟩ [0xaa, 0x11, 0x20, 0xbc]).error =
      some "Invalid message counter" := by decide

/-- C8 amended: for a packet addressed to neither 0x00 nor 0x28, a matching
counter advances nextMessageCounter and the packet is ignored with no error
and no response, while a counter mismatch raises the invalid counter error
and leaves the state unchanged. -/
theorem otherAddress_counter_policy (s : ClientState) (p : List Nat)
    (h0 : address p ≠ 0x00) (h28 : address p ≠ 0x28) :
    (counterNibble p = s.nextMessageCounter →
      processMessage s p =
        ⟨{ s with nextMessageCounter := (counterNibble p + 1) % 16 }, none, none, none⟩) ∧
    (counterNibble p ≠ s.nextMessageCounter →
      (processMessage s p).error = some "Invalid message counter" ∧
      (processMessage s p).state = s) := by
  constructor
  · intro hc
    unfold processMessage
    simp [hc, h0, h28, getNextCounter]
  · intro hc
    unfold processMessage
    simp [hc, h0]

/-- Closed instance of otherAddress_counter_policy: the frame aa11 20 bc
with a matching expected counter 1 is ignored and the counter advances
to 2. -/
theorem otherAddress_counter_policy_witness :
    processMessage ⟨1, []⟩ [0xaa, 0x11, 0x20, 0xbc] = ⟨⟨2, []⟩, none, none, none⟩ := by
  have h := otherAddress_counter_policy ⟨1, []⟩ [0xaa, 0x11, 0x20, 0xbc]
    (by decide) (by decide)
  exact h.1 (by decide)

set_option maxRecDepth 8000 in
/-- C7 counterexample: feeding the slave scan 28d2018022 (counter 13) with
next counter 13 makes the engine send and announce the packet 80e21428cb,
which differs from the packet 8092022885 the claim predicts. -/
theorem slaveScan_response_counterexample :
    (onNewPacket ⟨13, []⟩ [0x28, 0xd2, 0x01, 0x80, 0x22] true).2 =
      [Event.sent [0x80, 0xe2, 0x14, 0x28, 0xcb],
       Event.init [0x80, 0xe2, 0x14, 0x28, 0xcb]] ∧
    ([0x80, 0xe2, 0x14, 0x28, 0xcb] : List Nat) ≠ [0x80, 0x92, 0x02, 0x28, 0x85] := by
  decide

set_option maxRecDepth 8000 in
/-- C7 amended: feeding the slave scan 28d2018022 (counter 13) with next
counter 13 emits the response packet 80e21428cb (address 0x80, counter 14,
payload [0x14, 0x28], CRC 0xcb), fires the init event with that packet, and
leaves the next counter at 15. -/
theorem slaveScan_response_amended :
    onNewPacket ⟨13, []⟩ [0x28, 0xd2, 0x01, 0x80, 0x22] true =
      (⟨15, []⟩,
       [Event.sent [0x80, 0xe2, 0x14, 0x28, 0xcb],
        Event.init [0x80, 0xe2, 0x14, 0x28, 0xcb]]) := by
  decide

/-- Processing a broadcast leaves the cached byte 0 equal to the byte 0
delivered, whether the status was fresh or skipped as unchanged. -/
theorem onBroadcast_cache (d : DoorState) (b : List Nat) :
    (onBroadcast d b).1.broadcastStatus.getD 0 0 = b.getD 0 0 := by
  by_cases hg : b.getD 0 0 = d.broadcastStatus.getD 0 0
  · unfold onBroadcast
    rw [if_pos hg]
    exact hg.symm
  · unfold onBroadcast
    rw [if_neg hg]
    cases hdec : broadcastToCurrentState b with
    | error e => rfl
    | ok ns =>
      dsimp only
      split <;> split <;> rfl

/-- A broadcast whose byte 0 equals the cached byte 0 is skipped entirely. -/
theorem onBroadcast_skip (d : DoorState) (b : List Nat)
    (h : b.getD 0 0 = d.broadcastStatus.getD 0 0) : onBroadcast d b = (d, []) := by
  unfold onBroadcast
  rw [if_pos h]

/-- C9: delivering two consecutive broadcasts with the same status byte 0
produces no event at all on the second delivery and leaves the stored door
and light states unchanged, so in particular no second update_door or
update_light fires. -/
theorem onBroadcast_idempotent (d : DoorState) (b b2 : List Nat)
    (h : b2.getD 0 0 = b.getD 0 0) :
    (onBroadcast (onBroadcast d b).1 b2).2 = [] ∧
    (onBroadcast (onBroadcast d b).1 b2).1.currentState =
      (onBroadcast d b).1.currentState ∧
    (onBroadcast (onBroadcast d b).1 b2).1.lightState =
      (onBroadcast d b).1.lightState := by
  have hskip := onBroadcast_skip (onBroadcast d b).1 b2
    (by rw [h, onBroadcast_cache d b])
  rw [hskip]
  exact ⟨rfl, rfl, rfl⟩

/-- Closed instance of onBroadcast_idempotent: from the fresh door machine,
delivering [0x0E, 0x02] and then [0x0E, 0x05] (same byte 0) produces nothing
on the second delivery. -/
theorem onBroadcast_idempotent_witness :
    (onBroadcast (onBroadcast ⟨[0, 0], none, none, none⟩ [0x0e, 0x02]).1 [0x0e, 0x05]).2 = [] ∧
    (onBroadcast (onBroadcast ⟨[0, 0], none, none, none⟩ [0x0e, 0x02]).1 [0x0e, 0x05]).1.currentState =
      (onBroadcast ⟨[0, 0], none, none, none⟩ [0x0e, 0x02]).1.currentState ∧
    (onBroadcast (onBroadcast ⟨[0, 0], none, none, none⟩ [0x0e, 0x02]).1 [0x0e, 0x05]).1.lightState =
      (onBroadcast ⟨[0, 0], none, none, none⟩ [0x0e, 0x02]).1.lightState :=
  onBroadcast_idempotent ⟨[0, 0], none, none, none⟩ [0x0e, 0x02] [0x0e, 0x05] (by decide)

/-- C10: a broadcast whose byte 0 differs from the cached byte 0 and whose
decode fails emits exactly the error event and leaves the stored current,
target and light cells unchanged. -/
theorem onBroadcast_decode_error_preserves_state (d : DoorState) (st : List Nat)
    (e : String) (hne : st.getD 0 0 ≠ d.broadcastStatus.getD 0 0)
    (herr : broadcastToCurrentState st = .error e) :
    (onBroadcast d st).2 = [.errorEv e] ∧
    (onBroadcast d st).1.currentState = d.currentState ∧
    (onBroadcast d st).1.targetState = d.targetState ∧
    (onBroadcast d st).1.lightState = d.lightState := by
  unfold onBroadcast
  rw [if_neg hne, herr]
  exact ⟨rfl, rfl, rfl, rfl⟩

/-- Closed instance of onBroadcast_decode_error_preserves_state: the fresh
door machine receiving [0x10, 0x00] (error_active bit set) emits the error
event and keeps all cells unset. -/
theorem onBroadcast_decode_error_preserves_state_witness :
    (onBroadcast ⟨[0, 0], none, none, none⟩ [0x10, 0x00]).2 = [.errorEv "Error active"] ∧
    (onBroadcast ⟨[0, 0], none, none, none⟩ [0x10, 0x00]).1.currentState = none ∧
    (onBroadcast ⟨[0, 0], none, none, none⟩ [0x10, 0x00]).1.targetState = none ∧
    (onBroadcast ⟨[0, 0], none, none, none⟩ [0x10, 0x00]).1.lightState = none :=
  onBroadcast_decode_error_preserves_state ⟨[0, 0], none, none, none⟩ [0x10, 0x00]
    "Error active" (by decide) rfl

/-- The payload accessor recovers the payload a frame was built from. -/
theorem payload_fromData (a c : Nat) (pay : List Nat) :
    payload (fromData a c pay) = pay := by
  simp [payload, fromData]

/-- The address accessor recovers the address a frame was built from. -/
theorem address_fromData (a c : Nat) (pay : List Nat) :
    address (fromData a c pay) = a := rfl

/-- The counter accessor recovers the counter a frame was built from when
the payload fits the length nibble. -/
theorem counterNibble_fromData (a c : Nat) (pay : List Nat) (h : pay.length < 16) :
    counterNibble (fromData a c pay) = c := by
  show ((c <<< 4) + pay.length) >>> 4 = c
  rw [Nat.shiftLeft_eq, Nat.shiftRight_eq_div_pow]
  have h16 : (2 : Nat) ^ 4 = 16 := by norm_num
  rw [h16]
  omega

/-- One poll on a non-empty queue pops the head entry, answers with its
payload on the advanced counter, advances the counter once more, and on the
successful write fires the resolver of the head entry with the sent
packet. -/
theorem pollStep_cons (s : ClientState) (e : ResponsePayload)
    (rest : List ResponsePayload) (hq : s.sendQueue = e :: rest)
    (hce : e.counter = none) :
    pollStep s =
      (⟨getNextCounter (getNextCounter s.nextMessageCounter), rest⟩,
       Event.sent (fromData 0x80 (getNextCounter s.nextMessageCounter) e.payload) ::
         resolveEvents e.resolver
           (fromData 0x80 (getNextCounter s.nextMessageCounter) e.payload)) := by
  have key : processMessage s (mkStatusRequest s.nextMessageCounter) =
      ⟨⟨getNextCounter (getNextCounter s.nextMessageCounter), rest⟩, none, none,
        some ⟨e.payload, some (getNextCounter s.nextMessageCounter), e.resolver⟩⟩ := by
    unfold processMessage processSlaveCommand mkStatusRequest
    simp [address_fromData, payload_fromData, counterNibble_fromData, hq, hce]
  unfold pollStep onNewPacket
  rw [key]
  simp

/-- The pushCommand fold appends one queue entry per command, in call order,
and does not touch the counter. -/
theorem pushCommands_spec (cs : List Cmd) (s : ClientState) :
    pushCommands s cs = ⟨s.nextMessageCounter, s.sendQueue ++ cs.map mkEntry⟩ := by
  induction cs generalizing s with
  | nil => simp [pushCommands]
  | cons c cs ih =>
    show pushCommands (pushCommand s c.flags c.estop c.id) cs = _
    rw [ih]
    simp [pushCommand, mkEntry]

/-- Draining a queue of pushed commands with as many polls produces exactly
the expected trace: per command, in order, one sent packet and the
fulfillment of that command with it. -/
theorem polls_drain (cs : List Cmd) :
    ∀ s : ClientState, s.sendQueue = cs.map mkEntry →
      (runPolls s cs.length).2 = expectedEvents s.nextMessageCounter cs := by
  induction cs with
  | nil =>
    intro s h
    simp [runPolls, expectedEvents]
  | cons c cs ih =>
    intro s h
    have hstep := pollStep_cons s (mkEntry c) (cs.map mkEntry) (by rw [h]; rfl) rfl
    show (runPolls s (cs.length + 1)).2 = _
    rw [runPolls, hstep]
    simp only [expectedEvents, mkEntry]
    rw [ih _ rfl]
    simp [resolveEvents, mkEntry]

/-- C3: starting from an empty queue, pushing any sequence of commands and
then polling once per command consumes the entries in FIFO submission
order, exactly one entry per poll; each consumed entry is answered with its
createSlaveStatusPayload bytes on the advanced counter, and its promise is
fulfilled with the packet that was actually sent for it after the
successful write, as listed by expectedEvents. -/
theorem pushCommand_fifo_delivery (s : ClientState) (cs : List Cmd)
    (h : s.sendQueue = []) :
    (runPolls (pushCommands s cs) cs.length).2 =
      expectedEvents s.nextMessageCounter cs := by
  have hq : (pushCommands s cs).sendQueue = cs.map mkEntry := by
    rw [pushCommands_spec, h]
    rfl
  have hn : (pushCommands s cs).nextMessageCounter = s.nextMessageCounter := by
    rw [pushCommands_spec]
  rw [polls_drain cs _ hq, hn]

/-- Closed instance of pushCommand_fifo_delivery: pushing an OPEN command
and then an emergency-stop command and polling twice resolves them in
order. -/
theorem pushCommand_fifo_delivery_witness :
    (runPolls (pushCommands ⟨13, []⟩ [⟨[0], false, 7⟩, ⟨[2], true, 9⟩]) 2).2 =
      expectedEvents 13 [⟨[0], false, 7⟩, ⟨[2], true, 9⟩] :=
  pushCommand_fifo_delivery ⟨13, []⟩ [⟨[0], false, 7⟩, ⟨[2], true, 9⟩] rfl

end HCP
